import Mathlib

/- Shallow embedding of src/main.rs of the random-gfa-graph-generator
repository.  The program generates a GFA file: a header line, node_count
node (S) lines carrying random DNA sequences, and edge (L) lines,
optionally prefixed by a cycle through all nodes to ensure strong
connectivity.

The pseudo-random source (rand::rngs::SmallRng) lives in an external
crate; it is modelled as a deterministic stream of raw natural-number
draws with a cursor, seeded by a deterministic function of the 64-bit
seed.  Uniform sampling over a closed range [lo, hi] is modelled as
lo + draw % (hi + 1 - lo), which preserves every property used here:
determinism given the seed, and range membership of each sample.
rand 0.9's Uniform::new_inclusive returns a Result which is Err exactly
when lo > hi; the .unwrap() on that Result (main.rs line 84) aborts the
process abnormally, modelled as GenError.emptyRange.  Output is modelled
as the list of lines written before termination, each line tagged by the
writeln! site that produced it, plus a render function giving the exact
bytes; the BufWriter is flushed when dropped, also during abnormal
unwinding, so lines written before an abort do reach the destination. -/

/-- A deterministic pseudo-random stream: raw draws indexed by a cursor. -/
structure RngState where
  stream : Nat → Nat
  pos : Nat

/-- Draw one raw value and advance the cursor. -/
def RngState.next (r : RngState) : Nat × RngState :=
  (r.stream r.pos, ⟨r.stream, r.pos + 1⟩)

/-- One 64-bit mixing step; stands in for the seed expansion inside
SmallRng (the exact algorithm lives in the rand crate; only its
determinism matters for the properties proved here). -/
def mixStep (x : Nat) : Nat :=
  (x * 6364136223846793005 + 1442695040888963407) % (2 ^ 64)

/-- Models SmallRng::seed_from_u64 (main.rs line 59): a random stream that
is a deterministic function of the seed. -/
def rngOfSeed (seed : Nat) : RngState :=
  ⟨fun i => mixStep^[i + 1] (seed % 2 ^ 64), 0⟩

/-- The command-line inputs relevant to generation (main.rs lines 17-44).
seed = none models an omitted --seed option. -/
structure Cli where
  node_count : Nat
  edge_count : Nat
  ensure_strongly_connected : Bool
  seed : Option Nat
deriving DecidableEq

/-- How a run can abort: the bail at main.rs line 51 (configuration
error), or the .unwrap() of an Err returned by Uniform::new_inclusive on
an empty range (main.rs line 84), which aborts the process abnormally. -/
inductive GenError where
  | configurationError
  | emptyRange
deriving DecidableEq

/-- One output line, tagged by the writeln! site that produced it. -/
inductive Line where
  | header
  | sRec (id : Nat) (seq : String)
  | lRec (fromId : Nat) (fromSign : Char) (toId : Nat) (toSign : Char)
deriving DecidableEq

/-- The exact bytes of a line (without the trailing newline), following
the format strings at main.rs lines 62, 67, 74, 76 and 93. -/
def Line.render : Line → String
  | .header => "H\tVN:Z:1.0"
  | .sRec id seq => "S\t" ++ toString id ++ "\t" ++ seq
  | .lRec fromId fromSign toId toSign =>
      "L\t" ++ toString fromId ++ "\t" ++ String.singleton fromSign ++ "\t" ++
        toString toId ++ "\t" ++ String.singleton toSign ++ "\t0M"

/-- The observable result of a run: the lines that reach the destination,
and how the run ended (none = normal exit). -/
structure RunResult where
  lines : List Line
  error : Option GenError
deriving DecidableEq

/-- A uniform distribution over the closed integer range [lo, hi]. -/
structure Uniform where
  lo : Nat
  hi : Nat
deriving DecidableEq

/-- rand 0.9's Uniform::new_inclusive: errors exactly when lo > hi. -/
def uniformNewInclusive (lo hi : Nat) : Except GenError Uniform :=
  if lo ≤ hi then .ok ⟨lo, hi⟩ else .error .emptyRange

/-- Draw one sample: consumes one raw draw and lands in [lo, hi]
whenever lo ≤ hi. -/
def Uniform.sample (u : Uniform) (r : RngState) : Nat × RngState :=
  (u.lo + (r.next).1 % (u.hi + 1 - u.lo), (r.next).2)

/-- IndexedRandom::choose on a nonempty list: one raw draw picks an
index.  The default value is never used: every caller passes a nonempty
list, matching the .unwrap() in the source. -/
def chooseFrom (xs : List Char) (r : RngState) : Char × RngState :=
  (xs.getD ((r.next).1 % xs.length) 'A', (r.next).2)

/-- The DNA alphabet (main.rs line 104). -/
def nucleotides : List Char := ['A', 'C', 'G', 'T']

/-- The orientation signs (main.rs line 85). -/
def signs : List Char := ['+', '-']

/-- Uniform::new_inclusive(5, 15).unwrap() from main.rs line 66; the
unwrap always succeeds since 5 ≤ 15. -/
def lengthDistribution : Uniform := ⟨5, 15⟩

/-- nucleotides.choose_iter(rng).unwrap().take(length).collect()
(main.rs line 105): draw n uniform nucleotides, in draw order. -/
def randomDnaChars : Nat → RngState → List Char × RngState
  | 0, r => ([], r)
  | n + 1, r =>
    let c := chooseFrom nucleotides r
    let rest := randomDnaChars n c.2
    (c.1 :: rest.1, rest.2)

/-- random_dna_string (main.rs lines 101-106): draw a length from the
given distribution, then that many nucleotides. -/
def random_dna_string (r : RngState) (length_distribution : Uniform) :
    String × RngState :=
  let len := length_distribution.sample r
  let cs := randomDnaChars len.1 len.2
  (String.mk cs.1, cs.2)

/-- The node-writing loop (main.rs lines 65-68) over the given node ids. -/
def writeNodes : List Nat → RngState → List Line × RngState
  | [], r => ([], r)
  | id :: rest, r =>
    let s := random_dna_string r lengthDistribution
    let tail := writeNodes rest s.2
    (Line.sRec id s.1 :: tail.1, tail.2)

/-- The cycle-construction phase (main.rs lines 73-76): edges i → i+1 for
i in the half-open Rust range 1..node_count, then the closing edge
node_count → 1, written unconditionally.  Consumes no randomness. -/
def cycleEdges (node_count : Nat) : List Line :=
  (List.range' 1 (node_count - 1)).map (fun i => Line.lRec i '+' (i + 1) '+') ++
    [Line.lRec node_count '+' 1 '+']

/-- The random-edge loop (main.rs lines 86-96): for each edge draw
from, to, from_sign, to_sign, in that order. -/
def writeRandomEdges (random_node : Uniform) : Nat → RngState → List Line × RngState
  | 0, r => ([], r)
  | n + 1, r =>
    let fr := random_node.sample r
    let tn := random_node.sample fr.2
    let frSign := chooseFrom signs tn.2
    let tnSign := chooseFrom signs frSign.2
    let rest := writeRandomEdges random_node n tnSign.2
    (Line.lRec fr.1 frSign.1 tn.1 tnSign.1 :: rest.1, rest.2)

/-- The validation at main.rs lines 50-52: the run is rejected exactly
when strong connectivity is required but edge_count < node_count. -/
def accepted (cli : Cli) : Bool :=
  !(cli.ensure_strongly_connected && decide (cli.edge_count < cli.node_count))

/-- The function main (main.rs lines 46-99) from a given random stream: validate,
write the header, the nodes, the cycle when requested, then build the
uniform node sampler (whose unwrap aborts when node_count = 0) and write
the remaining random edges. -/
def mainFn (cli : Cli) (r0 : RngState) : RunResult :=
  if accepted cli then
    let nodes := writeNodes (List.range' 1 cli.node_count) r0
    let connect : List Line × Nat :=
      if cli.ensure_strongly_connected then
        (cycleEdges cli.node_count, cli.edge_count - cli.node_count)
      else
        ([], cli.edge_count)
    match uniformNewInclusive 1 cli.node_count with
    | .error e =>
        ⟨Line.header :: (nodes.1 ++ connect.1), some e⟩
    | .ok random_node =>
        let randoms := writeRandomEdges random_node connect.2 nodes.2
        ⟨Line.header :: (nodes.1 ++ connect.1 ++ randoms.1), none⟩
  else
    ⟨[], some GenError.configurationError⟩

/-- The seed actually used: the provided one, else fresh entropy
(cli.seed.unwrap_or_else of rand::random, main.rs line 59). -/
def seedFor (cli : Cli) (entropy : Nat) : Nat := cli.seed.getD entropy

/-- A whole process run: seed the random stream, then generate. -/
def run (cli : Cli) (entropy : Nat) : RunResult :=
  mainFn cli (rngOfSeed (seedFor cli entropy))

/-- The bytes reaching the destination: each line plus a newline. -/
def outputBytes (res : RunResult) : String :=
  String.join (res.lines.map (fun l => Line.render l ++ "\n"))

/-- Recognise the header line. -/
def Line.isHeader : Line → Bool
  | .header => true
  | _ => false

/-- Recognise a node (S) line. -/
def Line.isS : Line → Bool
  | .sRec _ _ => true
  | _ => false

/-- Recognise an edge (L) line. -/
def Line.isL : Line → Bool
  | .lRec _ _ _ _ => true
  | _ => false

/-- The node id of an S line, if any. -/
def Line.nodeId : Line → Option Nat
  | .sRec id _ => some id
  | _ => none

/-- The ids of the S lines of an output, in emission order. -/
def sIds (ls : List Line) : List Nat := ls.filterMap Line.nodeId

/-- The L lines of a run, in emission order. -/
def edgeLines (res : RunResult) : List Line := res.lines.filter Line.isL

/-- A concrete random stream, used to instantiate universally quantified
theorems at concrete inputs. -/
def zeroRng : RngState := ⟨fun _ => 0, 0⟩

/-- Convenience for strings built from an explicit character list. -/
theorem mk_length (cs : List Char) : (String.mk cs).length = cs.length := rfl

/-- Convenience for strings built from an explicit character list. -/
theorem mk_data (cs : List Char) : (String.mk cs).data = cs := rfl

/-- String concatenation is associative. -/
theorem strAppend_assoc (a b c : String) : a ++ b ++ c = a ++ (b ++ c) :=
  String.ext (by simp [String.data_append])

/-- Uniform construction succeeds on a nonempty range. -/
theorem uniformNewInclusive_ok {lo hi : Nat} (h : lo ≤ hi) :
    uniformNewInclusive lo hi = .ok ⟨lo, hi⟩ := by
  simp [uniformNewInclusive, h]

/-- Every sample of a nonempty uniform range lies inside the range. -/
theorem Uniform.sample_bounds (u : Uniform) (r : RngState) (h : u.lo ≤ u.hi) :
    u.lo ≤ (u.sample r).1 ∧ (u.sample r).1 ≤ u.hi := by
  have hpos : 0 < u.hi + 1 - u.lo := by omega
  have hm := Nat.mod_lt (r.next).1 hpos
  simp only [Uniform.sample]
  omega

/-- Choosing from a nonempty list yields one of its elements. -/
theorem chooseFrom_mem (xs : List Char) (r : RngState) (h : xs ≠ []) :
    (chooseFrom xs r).1 ∈ xs := by
  have hlen : 0 < xs.length := List.length_pos.mpr h
  have hm : (r.next).1 % xs.length < xs.length := Nat.mod_lt _ hlen
  simp only [chooseFrom]
  rw [List.getD_eq_getElem xs 'A' hm]
  exact List.getElem_mem hm

/-- The nucleotide draw produces exactly the requested number of symbols. -/
theorem randomDnaChars_length (n : Nat) (r : RngState) :
    (randomDnaChars n r).1.length = n := by
  induction n generalizing r with
  | zero => rfl
  | succ n ih => simp [randomDnaChars, ih]

/-- Every drawn symbol is a nucleotide. -/
theorem randomDnaChars_mem (n : Nat) (r : RngState) :
    ∀ c ∈ (randomDnaChars n r).1, c ∈ nucleotides := by
  induction n generalizing r with
  | zero => intro c hc; simp [randomDnaChars] at hc
  | succ n ih =>
    intro c hc
    simp only [randomDnaChars, List.mem_cons] at hc
    rcases hc with h | h
    · subst h; exact chooseFrom_mem _ _ (by simp [nucleotides])
    · exact ih _ _ h

/-- A generated sequence has length in [5, 15] and uses only nucleotides. -/
theorem random_dna_string_valid (r : RngState) :
    (5 ≤ (random_dna_string r lengthDistribution).1.length ∧
      (random_dna_string r lengthDistribution).1.length ≤ 15) ∧
    ∀ c ∈ (random_dna_string r lengthDistribution).1.data, c ∈ nucleotides := by
  have hb := Uniform.sample_bounds lengthDistribution r (by decide)
  simp only [random_dna_string, mk_length, mk_data, randomDnaChars_length]
  exact ⟨hb, randomDnaChars_mem _ _⟩

/-- The node loop writes one line per id. -/
theorem writeNodes_length (ids : List Nat) (r : RngState) :
    (writeNodes ids r).1.length = ids.length := by
  induction ids generalizing r with
  | nil => rfl
  | cons id rest ih => simp [writeNodes, ih]

/-- The ids of an S line prefix list. -/
theorem sIds_cons_s (id : Nat) (seq : String) (tl : List Line) :
    sIds (Line.sRec id seq :: tl) = id :: sIds tl := by
  simp [sIds, Line.nodeId]

/-- The node loop emits the given ids, in order. -/
theorem writeNodes_sIds (ids : List Nat) (r : RngState) :
    sIds (writeNodes ids r).1 = ids := by
  induction ids generalizing r with
  | nil => rfl
  | cons id rest ih => simp [writeNodes, sIds_cons_s, ih]

/-- Every line the node loop writes is an S line. -/
theorem writeNodes_isS (ids : List Nat) (r : RngState) :
    ∀ l ∈ (writeNodes ids r).1, Line.isS l = true := by
  induction ids generalizing r with
  | nil => intro l hl; simp [writeNodes] at hl
  | cons id rest ih =>
    intro l hl
    simp only [writeNodes, List.mem_cons] at hl
    rcases hl with h | h
    · subst h; rfl
    · exact ih _ _ h

/-- Every sequence the node loop writes is valid. -/
theorem writeNodes_valid (ids : List Nat) (r : RngState) (id : Nat) (seq : String)
    (h : Line.sRec id seq ∈ (writeNodes ids r).1) :
    (5 ≤ seq.length ∧ seq.length ≤ 15) ∧ ∀ c ∈ seq.data, c ∈ nucleotides := by
  induction ids generalizing r with
  | nil => simp [writeNodes] at h
  | cons i rest ih =>
    simp only [writeNodes, List.mem_cons, Line.sRec.injEq] at h
    rcases h with ⟨_, h2⟩ | h
    · subst h2; exact random_dna_string_valid r
    · exact ih _ h

/-- The random-edge loop writes one line per remaining edge. -/
theorem writeRandomEdges_length (u : Uniform) (n : Nat) (r : RngState) :
    (writeRandomEdges u n r).1.length = n := by
  induction n generalizing r with
  | zero => rfl
  | succ n ih => simp [writeRandomEdges, ih]

/-- Every line the random-edge loop writes is an L line. -/
theorem writeRandomEdges_isL (u : Uniform) (n : Nat) (r : RngState) :
    ∀ l ∈ (writeRandomEdges u n r).1, Line.isL l = true := by
  induction n generalizing r with
  | zero => intro l hl; simp [writeRandomEdges] at hl
  | succ n ih =>
    intro l hl
    simp only [writeRandomEdges, List.mem_cons] at hl
    rcases hl with h | h
    · subst h; rfl
    · exact ih _ _ h

/-- Every line of the cycle phase is an L line. -/
theorem cycleEdges_isL (n : Nat) : ∀ l ∈ cycleEdges n, Line.isL l = true := by
  intro l hl
  simp [cycleEdges] at hl
  rcases hl with ⟨i, _, h⟩ | h <;> subst h <;> rfl

/-- For at least one node, the cycle phase emits exactly node_count lines. -/
theorem cycleEdges_length (n : Nat) (h : 1 ≤ n) : (cycleEdges n).length = n := by
  simp [cycleEdges]
  omega

/-- S lines are not L lines. -/
theorem isS_not_isL {l : Line} (h : Line.isS l = true) : ¬ Line.isL l = true := by
  cases l <;> simp_all [Line.isS, Line.isL]

/-- S lines are not header lines. -/
theorem isS_not_isHeader {l : Line} (h : Line.isS l = true) :
    ¬ Line.isHeader l = true := by
  cases l <;> simp_all [Line.isS, Line.isHeader]

/-- L lines are not S lines. -/
theorem isL_not_isS {l : Line} (h : Line.isL l = true) : ¬ Line.isS l = true := by
  cases l <;> simp_all [Line.isS, Line.isL]

/-- L lines are not header lines. -/
theorem isL_not_isHeader {l : Line} (h : Line.isL l = true) :
    ¬ Line.isHeader l = true := by
  cases l <;> simp_all [Line.isHeader, Line.isL]

/-- L lines carry no node id. -/
theorem isL_nodeId_none {l : Line} (h : Line.isL l = true) : Line.nodeId l = none := by
  cases l <;> simp_all [Line.nodeId, Line.isL]

/-- Taking as many elements as the first summand has returns it. -/
theorem take_length_append {α : Type} (l₁ l₂ : List α) (n : Nat)
    (h : l₁.length = n) : (l₁ ++ l₂).take n = l₁ := by
  subst h
  exact List.take_left _ _

/-- The accepted check on the strong-connectivity path forces
node_count ≤ edge_count. -/
theorem le_of_accepted (cli : Cli) (h1 : cli.ensure_strongly_connected = true)
    (h2 : accepted cli = true) : cli.node_count ≤ cli.edge_count := by
  simp [accepted, h1] at h2
  omega

/-- A validation-passing configuration, given enough edges. -/
theorem accepted_of_le (cli : Cli) (h : cli.node_count ≤ cli.edge_count) :
    accepted cli = true := by
  simp [accepted]
  exact Or.inr h

/-- The shape of a successful generation: for an accepted configuration
with at least one node, the run succeeds and its lines are the header,
the node lines, the cycle lines (when requested) and the random edge
lines, in that order. -/
theorem mainFn_accepted (cli : Cli) (r : RngState) (hacc : accepted cli = true)
    (hn : 1 ≤ cli.node_count) :
    mainFn cli r =
      ⟨Line.header ::
        ((writeNodes (List.range' 1 cli.node_count) r).1 ++
          (if cli.ensure_strongly_connected then cycleEdges cli.node_count else []) ++
          (writeRandomEdges ⟨1, cli.node_count⟩
            (if cli.ensure_strongly_connected then cli.edge_count - cli.node_count
             else cli.edge_count)
            (writeNodes (List.range' 1 cli.node_count) r).2).1),
        none⟩ := by
  unfold mainFn
  rw [if_pos hacc, uniformNewInclusive_ok hn]
  by_cases he : cli.ensure_strongly_connected = true
  · simp [he]
  · simp [he]

/-- Rendering a plus/plus edge line, with the literals merged. -/
theorem render_lRec_pp (a b : Nat) :
    Line.render (Line.lRec a '+' b '+') =
      "L\t" ++ toString a ++ "\t+\t" ++ toString b ++ "\t+\t0M" := by
  show "L\t" ++ toString a ++ "\t" ++ String.singleton '+' ++ "\t" ++
      toString b ++ "\t" ++ String.singleton '+' ++ "\t0M" = _
  rw [show String.singleton '+' = "+" from rfl]
  rw [show ("\t+\t" : String) = "\t" ++ "+" ++ "\t" from rfl]
  rw [show ("\t+\t0M" : String) = "\t" ++ "+" ++ "\t0M" from rfl]
  simp [strAppend_assoc]

/-- Line counts of a decomposed output: a header, then S lines, then two
batches of L lines. -/
theorem counts_of (ns cs rs : List Line)
    (hns : ∀ l ∈ ns, Line.isS l = true)
    (hcs : ∀ l ∈ cs, Line.isL l = true)
    (hrs : ∀ l ∈ rs, Line.isL l = true) :
    ((Line.header :: (ns ++ cs ++ rs)).filter Line.isHeader).length = 1 ∧
    ((Line.header :: (ns ++ cs ++ rs)).filter Line.isS).length = ns.length ∧
    ((Line.header :: (ns ++ cs ++ rs)).filter Line.isL).length = cs.length + rs.length := by
  have hnsL : ns.filter Line.isL = [] :=
    List.filter_eq_nil_iff.mpr fun l hl => isS_not_isL (hns l hl)
  have hnsH : ns.filter Line.isHeader = [] :=
    List.filter_eq_nil_iff.mpr fun l hl => isS_not_isHeader (hns l hl)
  have hnsS : ns.filter Line.isS = ns := List.filter_eq_self.mpr hns
  have hcsL : cs.filter Line.isL = cs := List.filter_eq_self.mpr hcs
  have hcsH : cs.filter Line.isHeader = [] :=
    List.filter_eq_nil_iff.mpr fun l hl => isL_not_isHeader (hcs l hl)
  have hcsS : cs.filter Line.isS = [] :=
    List.filter_eq_nil_iff.mpr fun l hl => isL_not_isS (hcs l hl)
  have hrsL : rs.filter Line.isL = rs := List.filter_eq_self.mpr hrs
  have hrsH : rs.filter Line.isHeader = [] :=
    List.filter_eq_nil_iff.mpr fun l hl => isL_not_isHeader (hrs l hl)
  have hrsS : rs.filter Line.isS = [] :=
    List.filter_eq_nil_iff.mpr fun l hl => isL_not_isS (hrs l hl)
  refine ⟨?_, ?_, ?_⟩ <;>
    simp [List.filter_cons, Line.isHeader, Line.isS, Line.isL, List.filter_append,
      hnsL, hnsH, hnsS, hcsL, hcsH, hcsS, hrsL, hrsH, hrsS]

/-- The S ids of a decomposed output. -/
theorem sIds_of (ns cs rs : List Line)
    (hcs : ∀ l ∈ cs, Line.isL l = true)
    (hrs : ∀ l ∈ rs, Line.isL l = true) :
    sIds (Line.header :: (ns ++ cs ++ rs)) = sIds ns := by
  have hcs0 : sIds cs = [] :=
    List.filterMap_eq_nil_iff.mpr fun l hl => isL_nodeId_none (hcs l hl)
  have hrs0 : sIds rs = [] :=
    List.filterMap_eq_nil_iff.mpr fun l hl => isL_nodeId_none (hrs l hl)
  simp only [sIds] at hcs0 hrs0 ⊢
  simp [List.filterMap_cons, Line.nodeId, List.filterMap_append, hcs0, hrs0]

/-- C1: for a fixed seed and a fixed specification
(node_count, edge_count, ensure_strongly_connected), two runs of the
generator produce the same result and in particular byte-identical
output streams: the outcome does not depend on the entropy the process
would otherwise draw a seed from. -/
theorem c1_determinism (cli : Cli) (s e1 e2 : Nat) (h : cli.seed = some s) :
    run cli e1 = run cli e2 ∧ outputBytes (run cli e1) = outputBytes (run cli e2) := by
  have hr : run cli e1 = run cli e2 := by
    unfold run seedFor
    rw [h]
    rfl
  exact ⟨hr, by rw [hr]⟩

/-- C1 witness: a concrete seeded configuration run under two different
entropy values. -/
theorem c1_determinism_witness :
    run ⟨3, 3, true, some 42⟩ 0 = run ⟨3, 3, true, some 42⟩ 1 ∧
      outputBytes (run ⟨3, 3, true, some 42⟩ 0) =
        outputBytes (run ⟨3, 3, true, some 42⟩ 1) :=
  c1_determinism ⟨3, 3, true, some 42⟩ 42 0 1 rfl

/-- C2: with ensure_strongly_connected set, node_count ≥ 1 and
edge_count ≥ node_count, the first node_count edge (L) lines of the
output are exactly the directed cycle 1→2→…→node_count→1, each rendered
with orientation plus on both endpoints and the overlap marker 0M; being
the first node_count edge lines, they all precede every random edge
line. -/
theorem c2_cycle_guarantee (cli : Cli) (r : RngState)
    (h1 : cli.ensure_strongly_connected = true)
    (h2 : 1 ≤ cli.node_count) (h3 : cli.node_count ≤ cli.edge_count) :
    (edgeLines (mainFn cli r)).take cli.node_count =
      (List.range' 1 (cli.node_count - 1)).map (fun i => Line.lRec i '+' (i + 1) '+') ++
        [Line.lRec cli.node_count '+' 1 '+'] ∧
    ((edgeLines (mainFn cli r)).take cli.node_count).map Line.render =
      (List.range' 1 (cli.node_count - 1)).map
        (fun i => "L\t" ++ toString i ++ "\t+\t" ++ toString (i + 1) ++ "\t+\t0M") ++
        ["L\t" ++ toString cli.node_count ++ "\t+\t1\t+\t0M"] := by
  have hacc : accepted cli = true := accepted_of_le cli h3
  have hdec := mainFn_accepted cli r hacc h2
  have hns := writeNodes_isS (List.range' 1 cli.node_count) r
  have hnsL : (writeNodes (List.range' 1 cli.node_count) r).1.filter Line.isL = [] :=
    List.filter_eq_nil_iff.mpr fun l hl => isS_not_isL (hns l hl)
  have hcyc : (cycleEdges cli.node_count).filter Line.isL = cycleEdges cli.node_count :=
    List.filter_eq_self.mpr (cycleEdges_isL cli.node_count)
  have hrnd :
      ((writeRandomEdges ⟨1, cli.node_count⟩ (cli.edge_count - cli.node_count)
        (writeNodes (List.range' 1 cli.node_count) r).2).1).filter Line.isL =
      (writeRandomEdges ⟨1, cli.node_count⟩ (cli.edge_count - cli.node_count)
        (writeNodes (List.range' 1 cli.node_count) r).2).1 :=
    List.filter_eq_self.mpr (writeRandomEdges_isL _ _ _)
  have hedge : edgeLines (mainFn cli r) =
      cycleEdges cli.node_count ++
        (writeRandomEdges ⟨1, cli.node_count⟩ (cli.edge_count - cli.node_count)
          (writeNodes (List.range' 1 cli.node_count) r).2).1 := by
    rw [hdec]
    simp [edgeLines, h1, List.filter_cons, Line.isL, List.filter_append, hnsL, hcyc, hrnd]
  have htake : (edgeLines (mainFn cli r)).take cli.node_count = cycleEdges cli.node_count := by
    rw [hedge]
    exact take_length_append _ _ _ (cycleEdges_length cli.node_count h2)
  refine ⟨htake, ?_⟩
  rw [htake]
  simp only [cycleEdges, List.map_append, List.map_map]
  congr 1
  · exact List.map_congr_left fun i _ => render_lRec_pp i (i + 1)
  · have h1 : toString (1 : Nat) = "1" := rfl
    rw [show ("\t+\t1\t+\t0M" : String) = "\t+\t" ++ "1" ++ "\t+\t0M" from rfl]
    simp [render_lRec_pp, h1, strAppend_assoc]

/-- C2 witness: a concrete strongly-connected configuration with two
nodes and two edges. -/
theorem c2_cycle_guarantee_witness :
    (edgeLines (mainFn ⟨2, 2, true, some 0⟩ zeroRng)).take 2 =
      (List.range' 1 1).map (fun i => Line.lRec i '+' (i + 1) '+') ++
        [Line.lRec 2 '+' 1 '+'] ∧
    ((edgeLines (mainFn ⟨2, 2, true, some 0⟩ zeroRng)).take 2).map Line.render =
      (List.range' 1 1).map
        (fun i => "L\t" ++ toString i ++ "\t+\t" ++ toString (i + 1) ++ "\t+\t0M") ++
        ["L\t" ++ toString 2 ++ "\t+\t1\t+\t0M"] :=
  c2_cycle_guarantee ⟨2, 2, true, some 0⟩ zeroRng rfl (by decide) (by decide)

/-- C3: requesting strong connectivity with edge_count < node_count is
rejected by the validation before any output exists: the run ends in the
configuration error with zero lines and zero bytes written. -/
theorem c3_configuration_rejection (cli : Cli) (r : RngState)
    (h1 : cli.ensure_strongly_connected = true)
    (h2 : cli.edge_count < cli.node_count) :
    mainFn cli r = ⟨[], some GenError.configurationError⟩ ∧
      outputBytes (mainFn cli r) = "" := by
  have hacc : ¬ (accepted cli = true) := by
    simp [accepted, h1]
    omega
  unfold mainFn
  rw [if_neg hacc]
  exact ⟨rfl, rfl⟩

/-- C3 witness: two nodes but a single edge under the strong-connectivity
requirement. -/
theorem c3_configuration_rejection_witness :
    mainFn ⟨2, 1, true, some 0⟩ zeroRng = ⟨[], some GenError.configurationError⟩ ∧
      outputBytes (mainFn ⟨2, 1, true, some 0⟩ zeroRng) = "" :=
  c3_configuration_rejection ⟨2, 1, true, some 0⟩ zeroRng rfl (by decide)

/-- C4 fails as stated: node_count = 0 with edge_count = 1 (no
strong-connectivity request) is accepted by the validation, yet the
output contains zero L lines instead of edge_count = 1, because the run
aborts when the uniform node sampler over the empty id range 1..=0 is
built. -/
theorem c4_counterexample :
    accepted ⟨0, 1, false, some 0⟩ = true ∧
      ¬ (((mainFn ⟨0, 1, false, some 0⟩ zeroRng).lines.filter Line.isL).length = 1) := by
  decide

/-- C4 (amended): for every accepted input with node_count ≥ 1, the
output contains exactly one header line, exactly node_count S lines and
exactly edge_count L lines, whether or not strong connectivity is
requested. -/
theorem c4_cardinality (cli : Cli) (r : RngState)
    (hacc : accepted cli = true) (hn : 1 ≤ cli.node_count) :
    ((mainFn cli r).lines.filter Line.isHeader).length = 1 ∧
    ((mainFn cli r).lines.filter Line.isS).length = cli.node_count ∧
    ((mainFn cli r).lines.filter Line.isL).length = cli.edge_count := by
  rw [mainFn_accepted cli r hacc hn]
  have hns := writeNodes_isS (List.range' 1 cli.node_count) r
  by_cases he : cli.ensure_strongly_connected = true
  · rw [if_pos he, if_pos he] at *
    have hc := counts_of (writeNodes (List.range' 1 cli.node_count) r).1
      (cycleEdges cli.node_count)
      (writeRandomEdges ⟨1, cli.node_count⟩ (cli.edge_count - cli.node_count)
        (writeNodes (List.range' 1 cli.node_count) r).2).1
      hns (cycleEdges_isL cli.node_count) (writeRandomEdges_isL _ _ _)
    rw [writeNodes_length, List.length_range', cycleEdges_length cli.node_count hn,
      writeRandomEdges_length] at hc
    have hle := le_of_accepted cli he hacc
    refine ⟨hc.1, hc.2.1, ?_⟩
    rw [hc.2.2]
    omega
  · rw [if_neg he, if_neg he]
    have hc := counts_of (writeNodes (List.range' 1 cli.node_count) r).1 []
      (writeRandomEdges ⟨1, cli.node_count⟩ cli.edge_count
        (writeNodes (List.range' 1 cli.node_count) r).2).1
      hns (by intro l hl; simp at hl) (writeRandomEdges_isL _ _ _)
    rw [writeNodes_length, List.length_range', writeRandomEdges_length] at hc
    simpa using hc

/-- C4 witness for the amended statement: two nodes, three edges, strong
connectivity requested. -/
theorem c4_cardinality_witness :
    (accepted ⟨2, 3, true, some 0⟩ = true ∧ 1 ≤ 2) ∧
    (((mainFn ⟨2, 3, true, some 0⟩ zeroRng).lines.filter Line.isHeader).length = 1 ∧
     ((mainFn ⟨2, 3, true, some 0⟩ zeroRng).lines.filter Line.isS).length = 2 ∧
     ((mainFn ⟨2, 3, true, some 0⟩ zeroRng).lines.filter Line.isL).length = 3) :=
  ⟨⟨by decide, by decide⟩,
    c4_cardinality ⟨2, 3, true, some 0⟩ zeroRng (by decide) (by decide)⟩

/-- C5 fails as stated (for every input): with node_count = 2,
edge_count = 1 and strong connectivity required, the run is rejected and
writes nothing at all, so the ids appearing on S lines are [] and not
{1, 2}. -/
theorem c5_counterexample :
    ¬ (sIds (mainFn ⟨2, 1, true, some 0⟩ zeroRng).lines = List.range' 1 2) := by
  decide

/-- C5 (amended): for every input accepted by the validation, the ids on
the S lines are exactly the list 1, …, node_count: each id once, in
ascending order (rejected inputs produce no output at all). -/
theorem c5_node_ids (cli : Cli) (r : RngState) (hacc : accepted cli = true) :
    sIds (mainFn cli r).lines = List.range' 1 cli.node_count := by
  by_cases hn : 1 ≤ cli.node_count
  · rw [mainFn_accepted cli r hacc hn]
    by_cases he : cli.ensure_strongly_connected = true
    · rw [if_pos he, if_pos he]
      rw [sIds_of _ _ _ (cycleEdges_isL cli.node_count) (writeRandomEdges_isL _ _ _)]
      exact writeNodes_sIds _ r
    · rw [if_neg he, if_neg he]
      rw [sIds_of _ _ _ (by intro l hl; simp at hl) (writeRandomEdges_isL _ _ _)]
      exact writeNodes_sIds _ r
  · have h0 : cli.node_count = 0 := by omega
    unfold mainFn
    rw [if_pos hacc, h0]
    by_cases he : cli.ensure_strongly_connected = true <;>
      simp [he, uniformNewInclusive, writeNodes, cycleEdges, List.range',
        sIds, Line.nodeId]

/-- C5 witness for the amended statement. -/
theorem c5_node_ids_witness :
    accepted ⟨2, 2, false, some 0⟩ = true ∧
      sIds (mainFn ⟨2, 2, false, some 0⟩ zeroRng).lines = List.range' 1 2 :=
  ⟨by decide, c5_node_ids ⟨2, 2, false, some 0⟩ zeroRng (by decide)⟩

/-- An S line in any run's output comes from the node loop. -/
theorem sRec_mem_mainFn {cli : Cli} {r : RngState} {id : Nat} {seq : String}
    (h : Line.sRec id seq ∈ (mainFn cli r).lines) :
    Line.sRec id seq ∈ (writeNodes (List.range' 1 cli.node_count) r).1 := by
  unfold mainFn at h
  by_cases hacc : accepted cli = true
  · rw [if_pos hacc] at h
    by_cases he : cli.ensure_strongly_connected = true
    · rw [if_pos he] at h
      split at h <;> simp only [List.mem_cons, List.mem_append] at h <;>
        rcases h with h | h
      · exact absurd h (by simp)
      · rcases h with h | h
        · exact h
        · exact absurd (cycleEdges_isL _ _ h) (by simp [Line.isL])
      · exact absurd h (by simp)
      · rcases h with (h | h) | h
        · exact h
        · exact absurd (cycleEdges_isL _ _ h) (by simp [Line.isL])
        · exact absurd (writeRandomEdges_isL _ _ _ _ h) (by simp [Line.isL])
    · rw [if_neg he] at h
      split at h <;> simp only [List.mem_cons, List.mem_append] at h <;>
        rcases h with h | h
      · exact absurd h (by simp)
      · rcases h with h | h
        · exact h
        · exact absurd h (by simp)
      · exact absurd h (by simp)
      · rcases h with (h | h) | h
        · exact h
        · exact absurd h (by simp)
        · exact absurd (writeRandomEdges_isL _ _ _ _ h) (by simp [Line.isL])
  · rw [if_neg hacc] at h
    exact absurd h (by simp)

/-- C6: for every input and every random stream, every sequence carried
by an S line of the output consists only of the characters A, C, G, T
and has length between 5 and 15 inclusive. -/
theorem c6_sequence_alphabet_length (cli : Cli) (r : RngState) (id : Nat)
    (seq : String) (h : Line.sRec id seq ∈ (mainFn cli r).lines) :
    (5 ≤ seq.length ∧ seq.length ≤ 15) ∧ ∀ c ∈ seq.data, c ∈ nucleotides :=
  writeNodes_valid _ r id seq (sRec_mem_mainFn h)

/-- C6 witness: the single node generated from the all-zero stream
carries the sequence AAAAA. -/
theorem c6_sequence_alphabet_length_witness :
    Line.sRec 1 "AAAAA" ∈ (mainFn ⟨1, 0, false, some 0⟩ zeroRng).lines ∧
      ((5 ≤ "AAAAA".length ∧ "AAAAA".length ≤ 15) ∧
        ∀ c ∈ "AAAAA".data, c ∈ nucleotides) :=
  ⟨by decide,
    c6_sequence_alphabet_length ⟨1, 0, false, some 0⟩ zeroRng 1 "AAAAA" (by decide)⟩

/-- C7: with node_count = 0 and strong connectivity requested the cycle
phase is still invoked and emits the single line L 0 + 1 + 0M, which
references the nonexistent node 0, instead of emitting nothing; the run
then aborts on the empty uniform range.  (For node_count ≥ 1 the phase
does emit exactly node_count lines, see cycleEdges_length.) -/
theorem c7_empty_cycle_bug :
    (mainFn ⟨0, 0, true, some 0⟩ zeroRng).lines =
      [Line.header, Line.lRec 0 '+' 1 '+'] ∧
    Line.render (Line.lRec 0 '+' 1 '+') = "L\t0\t+\t1\t+\t0M" := by
  decide

/-- C8: with node_count = 0 and a positive random-edge budget the run
does abort before any random draw (the sampler construction itself
fails), but not with a configuration error as the claim states: it ends
with the empty-range abort, and the header (plus the spurious cycle line
when strong connectivity is requested) has already been written. -/
theorem c8_empty_range_abort :
    mainFn ⟨0, 1, false, some 0⟩ zeroRng =
      ⟨[Line.header], some GenError.emptyRange⟩ ∧
    mainFn ⟨0, 1, true, some 0⟩ zeroRng =
      ⟨[Line.header, Line.lRec 0 '+' 1 '+'], some GenError.emptyRange⟩ := by
  decide

/-- C9: for node_count = 0, edge_count = 0, the bytes reaching the
destination are exactly the header line, but the run does not succeed as
the claim states: it aborts with the empty-range error raised when the
uniform node sampler over 1..=0 is built. -/
theorem c9_header_only_abort :
    outputBytes (mainFn ⟨0, 0, false, some 0⟩ zeroRng) = "H\tVN:Z:1.0\n" ∧
      (mainFn ⟨0, 0, false, some 0⟩ zeroRng).error = some GenError.emptyRange := by
  decide

/-- C10: the unsigned subtraction edge_count - node_count (main.rs line
79) is reached only on the strong-connectivity path, where the line-50
validation has already guaranteed node_count ≤ edge_count, so the
subtraction cannot underflow: the natural-number difference is exact. -/
theorem c10_no_underflow (cli : Cli)
    (h1 : cli.ensure_strongly_connected = true) (h2 : accepted cli = true) :
    cli.node_count ≤ cli.edge_count ∧
      cli.edge_count - cli.node_count + cli.node_count = cli.edge_count := by
  have hle := le_of_accepted cli h1 h2
  exact ⟨hle, Nat.sub_add_cancel hle⟩

/-- C10 witness. -/
theorem c10_no_underflow_witness :
    2 ≤ 3 ∧ 3 - 2 + 2 = 3 :=
  c10_no_underflow ⟨2, 3, true, some 0⟩ rfl (by decide)
